import Mathlib

/-!
Verification of the pebble-face-builder job runner against its specification.

The development shallowly embeds the three source modules:

* `src/build/unzip.ts` — the safe archive extractor (`safeExtractZip`, the
  zip-slip path check, the symlink skip, and the cumulative `SizeLimiter`);
* `src/build/run.ts` — the toolchain executor (`appendLog` log capping and the
  close / timeout / error settle logic of `runPebbleBuild`);
* the HTTP server (`app.post('/build')`): `parseNumber`, the per-request
  configuration computation from query / multipart / JSON inputs, the
  `TransformLimiter` ingestion byte ceiling, the admission check on
  `activeBuilds`, and the handler's event order including the `finally`
  cleanup block.

Machine strings are `String`, byte streams are lists of chunk sizes
(`List Nat`), and filesystem effects are an explicit action trace.
-/

/-! ## Path model (POSIX semantics of `node:path`, as used by `safeExtractZip`) -/

/-- Split a list of characters at every `'/'` (semantics of
`String.splitOn "/"` as used by `path` handling; every separator produces a
new, possibly empty, segment). -/
def splitChars : List Char → List (List Char)
  | [] => [[]]
  | c :: rest =>
    match splitChars rest with
    | [] => if c = '/' then [[], []] else [[c]]
    | h :: t => if c = '/' then [] :: h :: t else (c :: h) :: t

/-- Split a path string into its `'/'`-separated segments. -/
def splitPath (s : String) : List String :=
  (splitChars s.data).map List.asString

/-- One step of POSIX path normalization: empty and `"."` segments are
dropped, `".."` pops the previous segment (absorbed at the root), any other
segment is appended. -/
def normStep (acc : List String) (seg : String) : List String :=
  if seg = "" ∨ seg = "." then acc
  else if seg = ".." then acc.dropLast
  else acc ++ [seg]

/-- `pre.data.isPrefixOf s.data`: string prefix test, the semantics of
`String.prototype.startsWith` used by the zip-slip check. -/
def strStartsWith (s pre : String) : Bool :=
  pre.data.isPrefixOf s.data

/-- String suffix test, the semantics of `String.prototype.endsWith`. -/
def strEndsWith (s suf : String) : Bool :=
  suf.data.isSuffixOf s.data

/-- Segment list of `path.resolve(root, entry)` for an absolute, already
canonical `root`: an absolute `entry` is normalized on its own, otherwise the
joined `root ++ "/" ++ entry` is normalized. -/
def resolveSegs (root entry : String) : List String :=
  (if strStartsWith entry "/" then splitPath entry
   else splitPath root ++ splitPath entry).foldl normStep []

/-- Join segments with `'/'`. -/
def joinSegs : List String → String
  | [] => ""
  | [s] => s
  | s :: rest => s ++ "/" ++ joinSegs rest

/-- Render an absolute path from its normalized segments. -/
def renderPath (segs : List String) : String :=
  "/" ++ joinSegs segs

/-- `path.resolve(root, entry)` on POSIX paths, for an absolute canonical
`root` (the extractor's root comes from `fs.realpath`). -/
def pathResolve (root entry : String) : String :=
  renderPath (resolveSegs root entry)

/-- `root.endsWith(path.sep) ? root : root + path.sep` from
`safeExtractZip`. -/
def rootPrefixStr (root : String) : String :=
  if strEndsWith root "/" then root else root ++ "/"

/-- The zip-slip acceptance test of `safeExtractZip`: the entry's resolved
path passes when it equals the root or starts with root-plus-separator
(the code fails on `resolvedPath !== root && !resolvedPath.startsWith(rootPrefix)`). -/
def entryPathOk (root resolved : String) : Bool :=
  resolved == root || strStartsWith resolved (rootPrefixStr root)

/-! ## The two stream byte limiters -/

/-- `SizeLimiter._transform` of `unzip.ts`, run over a whole stream of chunk
sizes: starting from the extraction-cumulative `totalBytes`, each chunk adds
its length and the copy errors the instant the running total exceeds
`maxBytes`; otherwise the final running total is returned. -/
def sizeLimiterRun (maxBytes totalBytes : Nat) : List Nat → Except Unit Nat
  | [] => .ok totalBytes
  | c :: rest =>
    if maxBytes < totalBytes + c then .error ()
    else sizeLimiterRun maxBytes (totalBytes + c) rest

/-- `TransformLimiter._transform` of the server, run from a zero counter over
a stream of chunk sizes (`total += chunk.length; if (total > maxBytes) error`). -/
def transformLimiterGo (maxBytes total : Nat) : List Nat → Except Unit Nat
  | [] => .ok total
  | c :: rest =>
    if maxBytes < total + c then .error ()
    else transformLimiterGo maxBytes (total + c) rest

/-- The server's `TransformLimiter` applied to a whole stream (used by both
multipart ingestion and the remote-URL download path). -/
def transformLimiterRun (maxBytes : Nat) (chunks : List Nat) : Except Unit Nat :=
  transformLimiterGo maxBytes 0 chunks

/-! ## `safeExtractZip` -/

/-- A zip entry's kind (`entry.type` in `unzipper`): a regular file carries
its decompressed chunk sizes and the `uncompressedSize` metadata hint, or a
directory, or a symbolic link. -/
inductive EntryKind
  | file (chunks : List Nat) (sizeHint : Nat)
  | directory
  | symbolicLink
deriving DecidableEq

/-- One archive entry: its stored path and kind. -/
structure ZipEntry where
  path : String
  kind : EntryKind
deriving DecidableEq

/-- Filesystem effects the extractor can perform. `writeFile p` stands for
`fs.mkdir(path.dirname(p), {recursive:true})` followed by streaming the entry
into `createWriteStream(p)` (the created parents are prefixes of `p`);
`mkdirDir` is the directory-entry `fs.mkdir`; `symlinkCreate` is the
filesystem's symlink-creation effect, which the extractor never invokes. -/
inductive FsAction
  | mkdirDir (p : String)
  | writeFile (p : String)
  | symlinkCreate (p : String)
deriving DecidableEq

/-- The two classified extraction failures of `unzip.ts`. -/
inductive ExtractErr
  | zipSlip
  | unzipLimit
deriving DecidableEq

/-- Extraction state: the cumulative decompressed byte counter `totalBytes`
and the trace of filesystem actions performed so far. -/
structure ExtractState where
  totalBytes : Nat
  actions : List FsAction
deriving DecidableEq

/-- Processing of one entry by `safeExtractZip` (lines 54–94 of `unzip.ts`):
zip-slip check first, then symlink skip, directory creation, the
uncompressed-size fast-fail hint, and the `SizeLimiter`-bounded file write.
An error result carries the state at the moment of failure (a mid-copy size
abort leaves the partially written file behind). -/
def extractEntry (root : String) (maxUnzipBytes : Nat) (st : ExtractState)
    (e : ZipEntry) : Except (ExtractErr × ExtractState) ExtractState :=
  let resolvedPath := pathResolve root e.path
  if entryPathOk root resolvedPath then
    match e.kind with
    | .symbolicLink => .ok st
    | .directory => .ok ⟨st.totalBytes, st.actions ++ [.mkdirDir resolvedPath]⟩
    | .file chunks sizeHint =>
      if 0 < sizeHint ∧ maxUnzipBytes < st.totalBytes + sizeHint then
        .error (.unzipLimit, st)
      else
        match sizeLimiterRun maxUnzipBytes st.totalBytes chunks with
        | .error _ => .error (.unzipLimit, ⟨st.totalBytes, st.actions ++ [.writeFile resolvedPath]⟩)
        | .ok t => .ok ⟨t, st.actions ++ [.writeFile resolvedPath]⟩
  else .error (.zipSlip, st)

/-- `safeExtractZip`: entries are processed sequentially in archive order
(the stream is paused while each entry's task runs); the first violation
aborts the whole extraction. -/
def safeExtractZip (root : String) (maxUnzipBytes : Nat) :
    List ZipEntry → ExtractState → Except (ExtractErr × ExtractState) ExtractState
  | [], st => .ok st
  | e :: rest, st =>
    match extractEntry root maxUnzipBytes st e with
    | .error r => .error r
    | .ok st' => safeExtractZip root maxUnzipBytes rest st'

/-- The path an action touches. -/
def FsAction.target : FsAction → String
  | .mkdirDir p => p
  | .writeFile p => p
  | .symlinkCreate p => p

/-- An action stays inside the destination root when its path passes the
zip-slip acceptance test. -/
def actionPathOk (root : String) (a : FsAction) : Bool :=
  entryPathOk root a.target

/-- Whether an action creates a symbolic link. -/
def isSymlinkAction : FsAction → Bool
  | .symlinkCreate _ => true
  | _ => false

/-! ## `run.ts`: log capture and outcome settlement -/

/-- The fixed log cap of `run.ts` (`200 * 1024`). -/
def LOG_LIMIT_BYTES : Nat := 200 * 1024

/-- `appendLog` of `run.ts`: once `size` has reached the cap the chunk is
dropped; otherwise the chunk is truncated to the remaining budget
(`chunk.subarray(0, remaining)`), pushed, and the size advanced by the pushed
slice's length. Chunks are byte lists. -/
def appendLog (buffer : List (List Nat)) (chunk : List Nat) (size : Nat) :
    List (List Nat) × Nat :=
  if LOG_LIMIT_BYTES ≤ size then (buffer, size)
  else
    let slice := chunk.take (LOG_LIMIT_BYTES - size)
    (buffer ++ [slice], size + slice.length)

/-- The log capture over a whole sequence of `data` chunks, starting from the
empty buffer and a zero size, as `runPebbleBuild` wires `onData`. -/
def appendLogRun (chunks : List (List Nat)) : List (List Nat) × Nat :=
  chunks.foldl (fun st c => appendLog st.1 c st.2) ([], 0)

/-- Total byte length of a chunk sequence. -/
def chunksLen (chunks : List (List Nat)) : Nat :=
  (chunks.map List.length).sum

/-- The outcome of one `runPebbleBuild` invocation. `timedOut` carries no
log (the code discards the capture on timeout) and `spawnError` is the child
`error` event path. -/
inductive BuildOutcome
  | success (log : List Nat)
  | failed (log : List Nat)
  | timedOut
  | spawnError
deriving DecidableEq

/-- The `close`-event classification of `run.ts` lines 85–95:
`if (signal || code !== 0) reject(BuildFailedError(log)) else resolve({log})`. -/
def closeOutcome (code : Option Int) (signal : Option String) (log : List Nat) :
    BuildOutcome :=
  if signal.isSome || code != some 0 then .failed log else .success log

/-- Whether an outcome is `success`. -/
def isSuccessOutcome : BuildOutcome → Bool
  | .success _ => true
  | _ => false

/-- The three events that can settle a `runPebbleBuild` invocation: the armed
timer firing, the child's `close` event (exit code and terminating signal),
and the child's `error` event. -/
inductive ProcEvent
  | timeoutFire
  | closeEv (code : Option Int) (signal : Option String)
  | errorEv
deriving DecidableEq

/-- The settle discipline of `runPebbleBuild`: the `settled` flag makes the
first event win and every later event a no-op, and each settling path disarms
the timer; the invocation's outcome is therefore the classification of the
first event, and `none` only if no event ever fires. -/
def runSettle (log : List Nat) : List ProcEvent → Option BuildOutcome
  | [] => none
  | .timeoutFire :: _ => some .timedOut
  | .closeEv code signal :: _ => some (closeOutcome code signal log)
  | .errorEv :: _ => some .spawnError

/-! ## The server (`app.post('/build')`) -/

/-- `BUILD_TIMEOUT_SEC` default. -/
def DEFAULT_TIMEOUT_SEC : Int := 120

/-- `MAX_ZIP_BYTES` default (`25 * 1024 * 1024`). -/
def DEFAULT_MAX_ZIP_BYTES : Int := 25 * 1024 * 1024

/-- `MAX_UNZIP_BYTES` default (`100 * 1024 * 1024`). -/
def DEFAULT_MAX_UNZIP_BYTES : Int := 100 * 1024 * 1024

/-- A raw request-supplied numeric value after JavaScript `Number(...)`
coercion: `none` stands for a non-finite result (`NaN`/`Infinity`), `some n`
for a finite number. An absent field is modelled one level up as `none` of
`Option RawNum`. -/
def RawNum := Option Int
deriving DecidableEq

/-- `parseNumber(value, fallback)` of the server: keep the fallback unless the
value coerces to a finite number strictly greater than zero. -/
def parseNumber (value : Option RawNum) (fallback : Int) : Int :=
  match value with
  | none => fallback
  | some none => fallback
  | some (some n) => if n ≤ 0 then fallback else n

/-- The build settings a request resolves to. -/
structure BuildSettings where
  target : Option String
  timeoutSec : Int
  maxZipBytes : Int
  maxUnzipBytes : Int
deriving DecidableEq

/-- The URL query-string parameters read at lines 164–168. -/
structure QueryParams where
  target : Option String
  timeoutSec : Option RawNum
  maxZipBytes : Option RawNum
  maxUnzipBytes : Option RawNum
deriving DecidableEq

/-- Settings derived from the query string alone (lines 165–168): each
numeric parameter goes through `parseNumber` against the environment
default. -/
def queryConfig (q : QueryParams) : BuildSettings :=
  { target := q.target
    timeoutSec := parseNumber q.timeoutSec DEFAULT_TIMEOUT_SEC
    maxZipBytes := parseNumber q.maxZipBytes DEFAULT_MAX_ZIP_BYTES
    maxUnzipBytes := parseNumber q.maxUnzipBytes DEFAULT_MAX_UNZIP_BYTES }

/-- The non-file multipart fields the handler reads (lines 195–201). -/
structure MultipartFields where
  target : Option String
  timeoutSec : Option RawNum
  maxZipBytes : Option RawNum
  maxUnzipBytes : Option RawNum
deriving DecidableEq

/-- Lines 195–206: apply the multipart field overrides to the query-derived
settings. `target` is replaced whenever the field is present; `timeoutSec`
and `maxUnzipBytes` go through `parseNumber` with the current value as
fallback; the `maxZipBytes` override is rejected as oversize (`413`,
`Except.error`) when it is smaller than `bytes`, the number of bundle bytes
already received. -/
def applyMultipartFields (s : BuildSettings) (f : MultipartFields)
    (bytes : Int) : Except Unit BuildSettings :=
  let s1 := { s with target := match f.target with | some t => some t | none => s.target }
  let s2 := { s1 with timeoutSec := parseNumber f.timeoutSec s1.timeoutSec }
  let s3 := { s2 with maxUnzipBytes := parseNumber f.maxUnzipBytes s2.maxUnzipBytes }
  let overrideMaxZipBytes := parseNumber f.maxZipBytes s3.maxZipBytes
  if overrideMaxZipBytes < bytes then .error ()
  else .ok { s3 with maxZipBytes := overrideMaxZipBytes }

/-- The JSON request body (lines 208–217). -/
structure JsonBody where
  bundleUrl : Option String
  target : Option String
  timeoutSec : Option RawNum
  maxZipBytes : Option RawNum
  maxUnzipBytes : Option RawNum
deriving DecidableEq

/-- Lines 214–217: apply the JSON body overrides to the query-derived
settings (`target = body.target ?? target`; numerics through `parseNumber`
with the current value as fallback). -/
def applyJsonFields (s : BuildSettings) (b : JsonBody) : BuildSettings :=
  { target := match b.target with | some t => some t | none => s.target
    timeoutSec := parseNumber b.timeoutSec s.timeoutSec
    maxZipBytes := parseNumber b.maxZipBytes s.maxZipBytes
    maxUnzipBytes := parseNumber b.maxUnzipBytes s.maxUnzipBytes }

/-- Observable events of one `/build` request, in handler order:
`slotIncrement` is `activeBuilds += 1`, `mkdirJobRoot` is
`fs.mkdir(jobRoot)`, `readBody` is body I/O (the multipart stream or the
remote fetch), `extractRun` and `buildRun` are the extraction and toolchain
phases, `respond n` sets the HTTP status, and `slotRelease` / `rmJobRoot`
are the two statements of the `finally` block. -/
inductive Ev
  | slotIncrement
  | mkdirJobRoot
  | readBody
  | extractRun
  | buildRun
  | respond (status : Nat)
  | slotRelease
  | rmJobRoot
deriving DecidableEq

/-- The error classification `handleMultipart` can reject with: the
`missing_bundle` message (mapped to `400`) or any other error (mapped to
`413`). -/
inductive MultipartErr
  | missingBundle
  | sizeOrOther
deriving DecidableEq

/-- The request body as the handler dispatches on `content-type`:
a multipart request (with its declared `content-length` header and the
abstracted result of `handleMultipart`), a JSON request (with the parsed
body and the abstracted fetch / length-check / stream outcomes), or any
other content type. -/
inductive BodyCase
  | multipart (contentLength : Option Int)
      (mpResult : Except MultipartErr (MultipartFields × Int))
  | json (body : JsonBody) (fetchOk : Bool) (lengthOver : Bool) (streamOk : Bool)
  | other

/-- Abstracted result of `safeExtractZip` as the handler classifies it. -/
inductive ExtractResult
  | ok
  | unzipLimit
  | zipSlip
  | malformed
deriving DecidableEq

/-- Abstracted result of `runPebbleBuild` as the handler classifies it. -/
inductive BuildRes
  | ok
  | timedOut
  | failed
  | spawnErr
deriving DecidableEq

/-- Abstracted result of `findPbw`. -/
inductive FindRes
  | found
  | notFound
deriving DecidableEq

/-- Everything that determines one request's path through the handler. -/
structure HandlerEnv where
  query : QueryParams
  body : BodyCase
  extractResult : ExtractResult
  buildResult : BuildRes
  findResult : FindRes

/-- Events of the extraction / build / artifact phases (lines 243–289):
each failure kind maps to its status, success responds `200`. -/
def afterIngest (er : ExtractResult) (br : BuildRes) (fr : FindRes) : List Ev :=
  .extractRun ::
    match er with
    | .unzipLimit => [.respond 413]
    | .zipSlip => [.respond 400]
    | .malformed => [.respond 400]
    | .ok =>
      .buildRun ::
        match br with
        | .timedOut => [.respond 504]
        | .failed => [.respond 500]
        | .spawnErr => [.respond 500]
        | .ok =>
          match fr with
          | .notFound => [.respond 500]
          | .found => [.respond 200]

/-- The body of the handler's `try` block after admission (lines 162–289):
query parsing, the content-type dispatch with the multipart fast
content-length check, `handleMultipart`, the override application, the JSON
`bundleUrl` / fetch / length / stream checks, then the shared tail phases. -/
def buildCore (env : HandlerEnv) : List Ev :=
  let s := queryConfig env.query
  match env.body with
  | .other => [.respond 400]
  | .multipart contentLength mpResult =>
    if (match contentLength with
        | some n => decide (s.maxZipBytes < n)
        | none => false) then
      [.respond 413]
    else
      .readBody ::
        match mpResult with
        | .error .missingBundle => [.respond 400]
        | .error .sizeOrOther => [.respond 413]
        | .ok (fields, bytes) =>
          match applyMultipartFields s fields bytes with
          | .error _ => [.respond 413]
          | .ok _ => afterIngest env.extractResult env.buildResult env.findResult
  | .json body fetchOk lengthOver streamOk =>
    match body.bundleUrl with
    | none => [.respond 400]
    | some _ =>
      .readBody ::
        (if !fetchOk then [.respond 400]
         else if lengthOver then [.respond 413]
         else if !streamOk then [.respond 413]
         else afterIngest env.extractResult env.buildResult env.findResult)

/-- The whole `/build` handler (lines 147–294): if `activeBuilds` has reached
`MAX_CONCURRENCY` the request is rejected with `429` before any other work;
otherwise the slot is incremented and the job root created, the `try` body
runs, and the `finally` block sets
`activeBuilds = Math.max(activeBuilds - 1, 0)` and removes the job root.
The result is the final `activeBuilds` value and the event trace. -/
def buildHandler (activeBuilds maxConcurrency : Nat) (env : HandlerEnv) :
    Nat × List Ev :=
  if maxConcurrency ≤ activeBuilds then (activeBuilds, [.respond 429])
  else
    (max (activeBuilds + 1 - 1) 0,
     .slotIncrement :: .mkdirJobRoot :: (buildCore env ++ [.slotRelease, .rmJobRoot]))

/-- `true` when the trace performs slot accounting or filesystem / body I/O
work before its first `respond` event. -/
def workBeforeRespond : List Ev → Bool
  | [] => false
  | .respond _ :: _ => false
  | .slotIncrement :: _ => true
  | .mkdirJobRoot :: _ => true
  | .readBody :: _ => true
  | _ :: rest => workBeforeRespond rest

/-! ## Lemmas about the byte limiters -/

lemma sizeLimiterRun_ok_le (maxB : Nat) :
    ∀ (chunks : List Nat) (init t : Nat), init ≤ maxB →
      sizeLimiterRun maxB init chunks = .ok t → t ≤ maxB
  | [], init, t, h, he => by
    simp [sizeLimiterRun] at he
    omega
  | c :: rest, init, t, h, he => by
    by_cases hc : maxB < init + c
    · simp [sizeLimiterRun, hc] at he
    · simp [sizeLimiterRun, hc] at he
      exact sizeLimiterRun_ok_le maxB rest (init + c) t (by omega) he

lemma transformLimiterGo_ok (maxB : Nat) :
    ∀ (chunks : List Nat) (total : Nat), total + chunks.sum ≤ maxB →
      transformLimiterGo maxB total chunks = .ok (total + chunks.sum)
  | [], total, h => by simp [transformLimiterGo]
  | c :: rest, total, h => by
    have hc : ¬ maxB < total + c := by simp [List.sum_cons] at h; omega
    rw [transformLimiterGo, if_neg hc]
    have := transformLimiterGo_ok maxB rest (total + c) (by simp [List.sum_cons] at h ⊢; omega)
    rw [this]
    simp [List.sum_cons]
    omega

lemma transformLimiterGo_err (maxB : Nat) :
    ∀ (chunks : List Nat) (total : Nat), total ≤ maxB → maxB < total + chunks.sum →
      transformLimiterGo maxB total chunks = .error ()
  | [], total, h, hlt => by simp at hlt; omega
  | c :: rest, total, h, hlt => by
    by_cases hc : maxB < total + c
    · rw [transformLimiterGo, if_pos hc]
    · rw [transformLimiterGo, if_neg hc]
      exact transformLimiterGo_err maxB rest (total + c) (by omega)
        (by simp [List.sum_cons] at hlt; omega)

/-! ## Lemmas about `extractEntry` and `safeExtractZip` -/

lemma extractEntry_ok_total (root : String) (maxB : Nat) (st : ExtractState)
    (e : ZipEntry) (st' : ExtractState) (h : st.totalBytes ≤ maxB)
    (he : extractEntry root maxB st e = .ok st') : st'.totalBytes ≤ maxB := by
  obtain ⟨p, k⟩ := e
  cases k with
  | symbolicLink =>
    simp [extractEntry] at he
    split at he
    · cases he; exact h
    · cases he
  | directory =>
    simp [extractEntry] at he
    split at he
    · cases he; exact h
    · cases he
  | file chunks sizeHint =>
    simp [extractEntry] at he
    split at he
    · split at he
      · cases he
      · cases hrun : sizeLimiterRun maxB st.totalBytes chunks with
        | error u => rw [hrun] at he; cases he
        | ok t =>
          rw [hrun] at he
          cases he
          exact sizeLimiterRun_ok_le maxB chunks st.totalBytes t h hrun
    · cases he

lemma extractEntry_ok_actions (root : String) (maxB : Nat) (st : ExtractState)
    (e : ZipEntry) (st' : ExtractState)
    (he : extractEntry root maxB st e = .ok st') :
    ∃ ext, st'.actions = st.actions ++ ext ∧
      ∀ a ∈ ext, actionPathOk root a = true ∧ isSymlinkAction a = false := by
  obtain ⟨p, k⟩ := e
  cases k with
  | symbolicLink =>
    simp [extractEntry] at he
    split at he
    · cases he; exact ⟨[], by simp⟩
    · cases he
  | directory =>
    simp [extractEntry] at he
    split at he
    next hok =>
      cases he
      refine ⟨[.mkdirDir (pathResolve root p)], by simp, ?_⟩
      intro a ha
      simp at ha
      subst ha
      exact ⟨hok, rfl⟩
    · cases he
  | file chunks sizeHint =>
    simp [extractEntry] at he
    split at he
    next hok =>
      split at he
      · cases he
      · cases hrun : sizeLimiterRun maxB st.totalBytes chunks with
        | error u => rw [hrun] at he; cases he
        | ok t =>
          rw [hrun] at he
          cases he
          refine ⟨[.writeFile (pathResolve root p)], by simp, ?_⟩
          intro a ha
          simp at ha
          subst ha
          exact ⟨hok, rfl⟩
    · cases he

lemma extractEntry_error_actions (root : String) (maxB : Nat) (st : ExtractState)
    (e : ZipEntry) (err : ExtractErr) (st' : ExtractState)
    (he : extractEntry root maxB st e = .error (err, st')) :
    ∃ ext, st'.actions = st.actions ++ ext ∧
      ∀ a ∈ ext, actionPathOk root a = true ∧ isSymlinkAction a = false := by
  obtain ⟨p, k⟩ := e
  cases k with
  | symbolicLink =>
    simp [extractEntry] at he
    split at he
    · cases he
    · cases he; exact ⟨[], by simp⟩
  | directory =>
    simp [extractEntry] at he
    split at he
    · cases he
    · cases he; exact ⟨[], by simp⟩
  | file chunks sizeHint =>
    simp [extractEntry] at he
    split at he
    next hok =>
      split at he
      · cases he; exact ⟨[], by simp⟩
      · cases hrun : sizeLimiterRun maxB st.totalBytes chunks with
        | error u =>
          rw [hrun] at he
          cases he
          refine ⟨[.writeFile (pathResolve root p)], by simp, ?_⟩
          intro a ha
          simp at ha
          subst ha
          exact ⟨hok, rfl⟩
        | ok t => rw [hrun] at he; cases he
    · cases he; exact ⟨[], by simp⟩

lemma safeExtractZip_ok_total (root : String) (maxB : Nat) :
    ∀ (entries : List ZipEntry) (st st' : ExtractState), st.totalBytes ≤ maxB →
      safeExtractZip root maxB entries st = .ok st' → st'.totalBytes ≤ maxB
  | [], st, st', h, he => by
    simp [safeExtractZip] at he
    cases he
    exact h
  | e :: rest, st, st', h, he => by
    rw [safeExtractZip] at he
    cases hstep : extractEntry root maxB st e with
    | error r => rw [hstep] at he; cases he
    | ok st1 =>
      rw [hstep] at he
      exact safeExtractZip_ok_total root maxB rest st1 st'
        (extractEntry_ok_total root maxB st e st1 h hstep) he

lemma safeExtractZip_ok_actions (root : String) (maxB : Nat) :
    ∀ (entries : List ZipEntry) (st st' : ExtractState),
      safeExtractZip root maxB entries st = .ok st' →
      ∃ ext, st'.actions = st.actions ++ ext ∧
        ∀ a ∈ ext, actionPathOk root a = true ∧ isSymlinkAction a = false
  | [], st, st', he => by
    simp [safeExtractZip] at he
    cases he
    exact ⟨[], by simp⟩
  | e :: rest, st, st', he => by
    rw [safeExtractZip] at he
    cases hstep : extractEntry root maxB st e with
    | error r => rw [hstep] at he; cases he
    | ok st1 =>
      rw [hstep] at he
      obtain ⟨ext1, hact1, hok1⟩ := extractEntry_ok_actions root maxB st e st1 hstep
      obtain ⟨ext2, hact2, hok2⟩ := safeExtractZip_ok_actions root maxB rest st1 st' he
      refine ⟨ext1 ++ ext2, by rw [hact2, hact1, List.append_assoc], ?_⟩
      intro a ha
      rcases List.mem_append.mp ha with h1 | h2
      · exact hok1 a h1
      · exact hok2 a h2

lemma safeExtractZip_error_actions (root : String) (maxB : Nat) :
    ∀ (entries : List ZipEntry) (st : ExtractState) (err : ExtractErr)
      (st' : ExtractState),
      safeExtractZip root maxB entries st = .error (err, st') →
      ∃ ext, st'.actions = st.actions ++ ext ∧
        ∀ a ∈ ext, actionPathOk root a = true ∧ isSymlinkAction a = false
  | [], st, err, st', he => by simp [safeExtractZip] at he
  | e :: rest, st, err, st', he => by
    rw [safeExtractZip] at he
    cases hstep : extractEntry root maxB st e with
    | error r =>
      rw [hstep] at he
      cases he
      exact extractEntry_error_actions root maxB st e err st' hstep
    | ok st1 =>
      rw [hstep] at he
      obtain ⟨ext1, hact1, hok1⟩ := extractEntry_ok_actions root maxB st e st1 hstep
      obtain ⟨ext2, hact2, hok2⟩ := safeExtractZip_error_actions root maxB rest st1 err st' he
      refine ⟨ext1 ++ ext2, by rw [hact2, hact1, List.append_assoc], ?_⟩
      intro a ha
      rcases List.mem_append.mp ha with h1 | h2
      · exact hok1 a h1
      · exact hok2 a h2

lemma extractEntry_symlink_skip (root : String) (maxB : Nat) (p : String)
    (st : ExtractState) (h : entryPathOk root (pathResolve root p) = true) :
    extractEntry root maxB st ⟨p, .symbolicLink⟩ = .ok st := by
  simp [extractEntry, h]

/-! ## Claim theorems: the extractor -/

/-- Claim C1: for every archive entry processed by `safeExtractZip`, if the
entry's path resolved against the canonical destination root is neither the
root itself nor a path beginning with root-plus-separator, the whole
extraction fails immediately with `ZipSlipError` — the failure state is
exactly the state before the entry, so nothing of that entry or of any later
entry is written — and every filesystem action ever performed (on success or
on any failure) targets a path that is the root or starts with
root-plus-separator, so no file is created outside the destination root. -/
theorem safeExtractZip_zipSlip_containment :
    (∀ (root : String) (maxB : Nat) (e : ZipEntry) (rest : List ZipEntry)
        (st : ExtractState),
        entryPathOk root (pathResolve root e.path) = false →
        safeExtractZip root maxB (e :: rest) st = .error (.zipSlip, st))
    ∧ (∀ (root : String) (maxB : Nat) (entries : List ZipEntry)
        (st : ExtractState),
        (∀ a ∈ st.actions, actionPathOk root a = true) →
        (∀ st', safeExtractZip root maxB entries st = .ok st' →
            ∀ a ∈ st'.actions, actionPathOk root a = true)
        ∧ (∀ err st', safeExtractZip root maxB entries st = .error (err, st') →
            ∀ a ∈ st'.actions, actionPathOk root a = true)) := by
  constructor
  · intro root maxB e rest st h
    rw [safeExtractZip]
    have : extractEntry root maxB st e = .error (.zipSlip, st) := by
      obtain ⟨p, k⟩ := e
      simp at h
      simp [extractEntry, h]
    rw [this]
  · intro root maxB entries st hst
    constructor
    · intro st' he a ha
      obtain ⟨ext, hact, hok⟩ := safeExtractZip_ok_actions root maxB entries st st' he
      rw [hact] at ha
      rcases List.mem_append.mp ha with h1 | h2
      · exact hst a h1
      · exact (hok a h2).1
    · intro err st' he a ha
      obtain ⟨ext, hact, hok⟩ := safeExtractZip_error_actions root maxB entries st err st' he
      rw [hact] at ha
      rcases List.mem_append.mp ha with h1 | h2
      · exact hst a h1
      · exact (hok a h2).1

/-- Witness for C1: the archive entry `../outside.txt` against the root
`/dst` resolves to `/outside.txt`, fails the check, and the extraction
rejects it from the empty initial state. -/
theorem safeExtractZip_zipSlip_containment_witness :
    entryPathOk "/dst" (pathResolve "/dst" "../outside.txt") = false
    ∧ safeExtractZip "/dst" 10 [⟨"../outside.txt", .file [1] 0⟩] ⟨0, []⟩
        = .error (.zipSlip, ⟨0, []⟩) :=
  ⟨by decide,
   safeExtractZip_zipSlip_containment.1 "/dst" 10 ⟨"../outside.txt", .file [1] 0⟩ []
     ⟨0, []⟩ (by decide)⟩

/-- Claim C2: the byte ceilings are exact. A stream summing to exactly the
ceiling passes the server's `TransformLimiter` (bundle ingestion) and returns
the full count; a stream whose sum exceeds the ceiling is aborted with the
size error; the extractor's cumulative `SizeLimiter` never reports success
with a count above the ceiling; and whenever `safeExtractZip` returns
success, the cumulative decompressed byte count is at most
`maxUnzipBytes`. -/
theorem byte_ceiling_exact :
    (∀ (maxB : Nat) (chunks : List Nat), chunks.sum = maxB →
        transformLimiterRun maxB chunks = .ok maxB)
    ∧ (∀ (maxB : Nat) (chunks : List Nat), maxB < chunks.sum →
        transformLimiterRun maxB chunks = .error ())
    ∧ (∀ (maxB init : Nat) (chunks : List Nat) (t : Nat), init ≤ maxB →
        sizeLimiterRun maxB init chunks = .ok t → t ≤ maxB)
    ∧ (∀ (root : String) (maxB : Nat) (entries : List ZipEntry)
        (st st' : ExtractState), st.totalBytes ≤ maxB →
        safeExtractZip root maxB entries st = .ok st' → st'.totalBytes ≤ maxB) := by
  refine ⟨?_, ?_, ?_, ?_⟩
  · intro maxB chunks h
    have := transformLimiterGo_ok maxB chunks 0 (by omega)
    rw [transformLimiterRun, this, Nat.zero_add, h]
  · intro maxB chunks h
    exact transformLimiterGo_err maxB chunks 0 (by omega) (by omega)
  · exact fun maxB init chunks t h he => sizeLimiterRun_ok_le maxB chunks init t h he
  · exact fun root maxB entries st st' h he =>
      safeExtractZip_ok_total root maxB entries st st' h he

/-- Witness for C2: a two-chunk payload of exactly 5 bytes passes a ceiling
of 5, one of 6 bytes fails it, and a concrete successful extraction of 10
bytes under a 10-byte ceiling stays at the ceiling. -/
theorem byte_ceiling_exact_witness :
    transformLimiterRun 5 [2, 3] = .ok 5
    ∧ transformLimiterRun 5 [2, 4] = .error ()
    ∧ ((safeExtractZip "/dst" 10 [⟨"a.txt", .file [4, 6] 0⟩] ⟨0, []⟩
          = .ok ⟨10, [.writeFile "/dst/a.txt"]⟩)
        ∧ (10 : Nat) ≤ 10) :=
  ⟨byte_ceiling_exact.1 5 [2, 3] (by decide),
   byte_ceiling_exact.2.1 5 [2, 4] (by decide),
   rfl,
   byte_ceiling_exact.2.2.2 "/dst" 10 [⟨"a.txt", .file [4, 6] 0⟩] ⟨0, []⟩
     ⟨10, [.writeFile "/dst/a.txt"]⟩ (by decide) rfl⟩

/-- Claim C4: a symbolic-link entry whose path passes the zip-slip check is
skipped entirely — extracting it is literally the extraction of the remaining
entries, with no state change — and no extraction result, successful or
failed, ever contains a symlink-creation action, so the on-disk result never
contains a symbolic link originating from the archive. -/
theorem safeExtractZip_symlink_skipped :
    (∀ (root : String) (maxB : Nat) (p : String) (rest : List ZipEntry)
        (st : ExtractState),
        entryPathOk root (pathResolve root p) = true →
        safeExtractZip root maxB (⟨p, .symbolicLink⟩ :: rest) st
          = safeExtractZip root maxB rest st)
    ∧ (∀ (root : String) (maxB : Nat) (entries : List ZipEntry)
        (st : ExtractState),
        (∀ a ∈ st.actions, isSymlinkAction a = false) →
        (∀ st', safeExtractZip root maxB entries st = .ok st' →
            ∀ a ∈ st'.actions, isSymlinkAction a = false)
        ∧ (∀ err st', safeExtractZip root maxB entries st = .error (err, st') →
            ∀ a ∈ st'.actions, isSymlinkAction a = false)) := by
  constructor
  · intro root maxB p rest st h
    rw [safeExtractZip, extractEntry_symlink_skip root maxB p st h]
  · intro root maxB entries st hst
    constructor
    · intro st' he a ha
      obtain ⟨ext, hact, hok⟩ := safeExtractZip_ok_actions root maxB entries st st' he
      rw [hact] at ha
      rcases List.mem_append.mp ha with h1 | h2
      · exact hst a h1
      · exact (hok a h2).2
    · intro err st' he a ha
      obtain ⟨ext, hact, hok⟩ := safeExtractZip_error_actions root maxB entries st err st' he
      rw [hact] at ha
      rcases List.mem_append.mp ha with h1 | h2
      · exact hst a h1
      · exact (hok a h2).2

/-- Witness for C4: an archive with a symlink entry extracts exactly like the
same archive without it, and the resulting filesystem actions hold no
symlink. -/
theorem safeExtractZip_symlink_skipped_witness :
    safeExtractZip "/dst" 10 [⟨"lnk", .symbolicLink⟩, ⟨"a.txt", .file [3] 0⟩] ⟨0, []⟩
      = safeExtractZip "/dst" 10 [⟨"a.txt", .file [3] 0⟩] ⟨0, []⟩
    ∧ safeExtractZip "/dst" 10 [⟨"a.txt", .file [3] 0⟩] ⟨0, []⟩
      = .ok ⟨3, [.writeFile "/dst/a.txt"]⟩ :=
  ⟨safeExtractZip_symlink_skipped.1 "/dst" 10 "lnk" [⟨"a.txt", .file [3] 0⟩]
     ⟨0, []⟩ (by decide), rfl⟩

/-! ## Lemmas about the captured log -/

lemma chunksLen_append (l : List (List Nat)) (c : List Nat) :
    chunksLen (l ++ [c]) = chunksLen l + c.length := by
  simp [chunksLen]

lemma appendLog_fold :
    ∀ (chunks : List (List Nat)) (buf : List (List Nat)) (size : Nat),
      chunksLen buf = size → size ≤ LOG_LIMIT_BYTES →
      chunksLen (chunks.foldl (fun st c => appendLog st.1 c st.2) (buf, size)).1
          = (chunks.foldl (fun st c => appendLog st.1 c st.2) (buf, size)).2
        ∧ (chunks.foldl (fun st c => appendLog st.1 c st.2) (buf, size)).2
          = min (size + chunksLen chunks) LOG_LIMIT_BYTES
  | [], buf, size, hb, hs => by
    simp [chunksLen]
    exact ⟨hb, by omega⟩
  | c :: rest, buf, size, hb, hs => by
    rw [List.foldl_cons]
    by_cases hcap : LOG_LIMIT_BYTES ≤ size
    · have heq : appendLog buf c size = (buf, size) := by
        simp [appendLog, hcap]
      rw [heq]
      obtain ⟨h1, h2⟩ := appendLog_fold rest buf size hb hs
      refine ⟨h1, ?_⟩
      rw [h2]
      have : chunksLen (c :: rest) = c.length + chunksLen rest := by
        simp [chunksLen]
      omega
    · have hlt : ¬ LOG_LIMIT_BYTES ≤ size := hcap
      have hslice : (c.take (LOG_LIMIT_BYTES - size)).length
          = min (LOG_LIMIT_BYTES - size) c.length := by
        simp [List.length_take]
      have heq : appendLog buf c size
          = (buf ++ [c.take (LOG_LIMIT_BYTES - size)],
             size + (c.take (LOG_LIMIT_BYTES - size)).length) := by
        simp [appendLog, hlt]
      rw [heq]
      have hb' : chunksLen (buf ++ [c.take (LOG_LIMIT_BYTES - size)])
          = size + (c.take (LOG_LIMIT_BYTES - size)).length := by
        rw [chunksLen_append, hb]
      have hs' : size + (c.take (LOG_LIMIT_BYTES - size)).length ≤ LOG_LIMIT_BYTES := by
        rw [hslice]; omega
      obtain ⟨h1, h2⟩ := appendLog_fold rest _ _ hb' hs'
      refine ⟨h1, ?_⟩
      rw [h2, hslice]
      have : chunksLen (c :: rest) = c.length + chunksLen rest := by
        simp [chunksLen]
      omega

/-! ## Claim theorems: the executor -/

/-- Claim C6: the captured log is always bounded. After feeding any output
chunk sequence through `appendLog`, the recorded size is exactly the total
output length clipped at `LOG_LIMIT_BYTES` (so it never exceeds the cap, and
output beyond the cap yields a capture of exactly the cap size), the bytes
actually buffered match that size, and the success/failure classification of
the `close` event does not depend on the captured log at all. -/
theorem log_capture_bounded :
    (∀ chunks : List (List Nat),
        (appendLogRun chunks).2 = min (chunksLen chunks) LOG_LIMIT_BYTES)
    ∧ (∀ chunks : List (List Nat), (appendLogRun chunks).2 ≤ LOG_LIMIT_BYTES)
    ∧ (∀ chunks : List (List Nat),
        chunksLen (appendLogRun chunks).1 = (appendLogRun chunks).2)
    ∧ (∀ chunks : List (List Nat), LOG_LIMIT_BYTES ≤ chunksLen chunks →
        (appendLogRun chunks).2 = LOG_LIMIT_BYTES)
    ∧ (∀ (code : Option Int) (signal : Option String) (l1 l2 : List Nat),
        isSuccessOutcome (closeOutcome code signal l1)
          = isSuccessOutcome (closeOutcome code signal l2)) := by
  have key : ∀ chunks : List (List Nat),
      chunksLen (appendLogRun chunks).1 = (appendLogRun chunks).2
        ∧ (appendLogRun chunks).2 = min (chunksLen chunks) LOG_LIMIT_BYTES := by
    intro chunks
    have := appendLog_fold chunks [] 0 (by simp [chunksLen]) (by simp)
    simpa [appendLogRun] using this
  refine ⟨fun c => (key c).2, fun c => ?_, fun c => (key c).1, fun c hc => ?_, ?_⟩
  · rw [(key c).2]; omega
  · rw [(key c).2]; omega
  · intro code signal l1 l2
    by_cases h : (signal.isSome || code != some 0) = true
    · simp [closeOutcome, h, isSuccessOutcome]
    · simp [closeOutcome, h, isSuccessOutcome]

/-- Witness for C6: an output stream one byte longer than the cap is captured
at exactly `LOG_LIMIT_BYTES`. -/
theorem log_capture_bounded_witness :
    (appendLogRun [List.replicate (LOG_LIMIT_BYTES + 1) 0]).2 = LOG_LIMIT_BYTES :=
  log_capture_bounded.2.2.2.1 [List.replicate (LOG_LIMIT_BYTES + 1) 0]
    (by simp [chunksLen])

/-- Claim C5: a `close` event with exit code zero and no signal settles the
invocation as `success` with the captured log; a `close` with a signal or a
non-zero (or absent) exit code settles it as `failed` with the log preserved;
a fired timeout settles it as `timedOut`, which carries no log; and whichever
event comes first fully determines the single outcome — every invocation that
receives at least one settling event produces exactly one outcome. -/
theorem runPebbleBuild_outcome_classification :
    (∀ (log : List Nat) (rest : List ProcEvent),
        runSettle log (.closeEv (some 0) none :: rest) = some (.success log))
    ∧ (∀ (log : List Nat) (code : Option Int) (signal : Option String)
        (rest : List ProcEvent), (signal.isSome || code != some 0) = true →
        runSettle log (.closeEv code signal :: rest) = some (.failed log))
    ∧ (∀ (log : List Nat) (rest : List ProcEvent),
        runSettle log (.timeoutFire :: rest) = some .timedOut)
    ∧ (∀ (log : List Nat) (e : ProcEvent) (rest : List ProcEvent),
        (runSettle log (e :: rest)).isSome = true) := by
  refine ⟨?_, ?_, ?_, ?_⟩
  · intro log rest
    simp [runSettle, closeOutcome]
  · intro log code signal rest h
    simp [runSettle, closeOutcome, h]
  · intro log rest
    simp [runSettle]
  · intro log e rest
    cases e <;> simp [runSettle]

/-- Witness for C5: an exit with code 1 settles as `failed` with the log,
and the later timeout firing is ignored. -/
theorem runPebbleBuild_outcome_classification_witness :
    runSettle [7] [.closeEv (some 1) none, .timeoutFire] = some (.failed [7]) :=
  runPebbleBuild_outcome_classification.2.1 [7] (some 1) none [.timeoutFire] (by decide)

/-! ## Claim theorems: the server -/

/-- Claim C7: a multipart request supplying a positive `maxZipBytes` override
has the override honored (it becomes the job's bundle ceiling) exactly when
it is not smaller than the bundle bytes already received; when it is smaller,
the handler fails the request with the payload-too-large error. -/
theorem maxZipBytes_override_honored :
    ∀ (s : BuildSettings) (f : MultipartFields) (bytes v : Int),
      f.maxZipBytes = some (some v) → 0 < v →
      ((bytes ≤ v → ∃ s', applyMultipartFields s f bytes = .ok s'
          ∧ s'.maxZipBytes = v)
        ∧ (v < bytes → applyMultipartFields s f bytes = .error ())) := by
  intro s f bytes v hf hv
  constructor
  · intro hle
    have heq : applyMultipartFields s f bytes = .ok
        { target := match f.target with | some t => some t | none => s.target
          timeoutSec := parseNumber f.timeoutSec s.timeoutSec
          maxZipBytes := v
          maxUnzipBytes := parseNumber f.maxUnzipBytes s.maxUnzipBytes } := by
      simp [applyMultipartFields, hf, parseNumber,
        show ¬ v ≤ 0 by omega, show ¬ v < bytes by omega]
    exact ⟨_, heq, rfl⟩
  · intro hlt
    simp [applyMultipartFields, hf, parseNumber, show ¬ v ≤ 0 by omega, hlt]

/-- Witness for C7: with 3 bundle bytes received, an override of 5 is
honored and an override of 2 is rejected as oversize. -/
theorem maxZipBytes_override_honored_witness :
    (∃ s', applyMultipartFields ⟨none, 120, 100, 1000⟩ ⟨none, none, some (some 5), none⟩ 3
        = .ok s' ∧ s'.maxZipBytes = 5)
    ∧ applyMultipartFields ⟨none, 120, 100, 1000⟩ ⟨none, none, some (some 2), none⟩ 3
        = .error () :=
  ⟨(maxZipBytes_override_honored ⟨none, 120, 100, 1000⟩ ⟨none, none, some (some 5), none⟩
      3 5 rfl (by decide)).1 (by decide),
   (maxZipBytes_override_honored ⟨none, 120, 100, 1000⟩ ⟨none, none, some (some 2), none⟩
      3 2 rfl (by decide)).2 (by decide)⟩

/-! ## Lemmas about the handler trace -/

lemma afterIngest_no_cleanup (er : ExtractResult) (br : BuildRes) (fr : FindRes) :
    Ev.slotRelease ∉ afterIngest er br fr ∧ Ev.rmJobRoot ∉ afterIngest er br fr := by
  cases er <;> cases br <;> cases fr <;> decide

lemma buildCore_no_cleanup (env : HandlerEnv) :
    Ev.slotRelease ∉ buildCore env ∧ Ev.rmJobRoot ∉ buildCore env := by
  obtain ⟨q, b, er, br, fr⟩ := env
  have hai := afterIngest_no_cleanup er br fr
  cases b with
  | other => simp [buildCore]
  | multipart cl mp =>
    cases mp with
    | error me =>
      cases me <;> simp [buildCore] <;> split <;> simp
    | ok pr =>
      obtain ⟨fields, bytes⟩ := pr
      simp only [buildCore]
      split
      · simp
      · cases happ : applyMultipartFields (queryConfig q) fields bytes with
        | error u => simp [happ]
        | ok s' => simp [happ, hai.1, hai.2]
  | json body fetchOk lengthOver streamOk =>
    cases hbu : body.bundleUrl with
    | none => simp [buildCore, hbu]
    | some u =>
      cases fetchOk <;> cases lengthOver <;> cases streamOk <;>
        simp [buildCore, hbu, hai.1, hai.2]

/-- Counterexample to claim C3: the handler maintains no wait queue at all,
so its queue length is the constant 0, which is below any positive capacity
(4 is used here); claim C3 then demands that a request arriving while all
slots are busy not be rejected with a too-many-requests outcome — but the
handler with 1 of 1 slots busy responds 429 immediately. -/
theorem admission_enqueue_claim_cex :
    ¬ (1 ≤ 1 → 0 < 4 →
        Ev.respond 429 ∉
          (buildHandler 1 1 ⟨⟨none, none, none, none⟩, .other, .ok, .ok, .found⟩).2) := by
  decide

/-- Claim C3 as amended: every request arriving while all execution slots
are busy is rejected immediately with the too-many-requests outcome, and
nothing else happens — there is no wait queue, no caller is ever enqueued,
and no FIFO grant occurs. -/
theorem admission_busy_always_rejects :
    ∀ (active maxC : Nat) (env : HandlerEnv), maxC ≤ active →
      buildHandler active maxC env = (active, [.respond 429]) := by
  intro active maxC env h
  simp [buildHandler, h]

/-- Witness for the amended C3: one busy slot of one rejects with 429. -/
theorem admission_busy_always_rejects_witness :
    buildHandler 1 1 ⟨⟨none, none, none, none⟩, .other, .ok, .ok, .found⟩
      = (1, [.respond 429]) :=
  admission_busy_always_rejects 1 1 _ (by decide)

/-- Counterexample to claim C8: on a request whose content type is neither
multipart nor JSON, the handler performs slot accounting (`activeBuilds += 1`)
and creates the job directory before emitting the 400 rejection — the trace
shows work before the first respond event, contradicting "rejected before any
admission work or I/O work occurs". -/
theorem contentType_reject_order_cex :
    workBeforeRespond
        (buildHandler 0 1 ⟨⟨none, none, none, none⟩, .other, .ok, .ok, .found⟩).2 = true
    ∧ (buildHandler 0 1 ⟨⟨none, none, none, none⟩, .other, .ok, .ok, .found⟩).2
        = [.slotIncrement, .mkdirJobRoot, .respond 400, .slotRelease, .rmJobRoot] :=
  ⟨by decide, by decide⟩

/-- Claim C8 as amended: an unsupported content type is rejected with a 400
client error before any body reading, extraction, or build work, but after
the slot increment and the job-root creation; both are undone by the
`finally` block (the slot count returns to its initial value and the job root
is removed), so the admission state and the filesystem end unchanged. -/
theorem contentType_reject_restores_state :
    ∀ (active maxC : Nat) (env : HandlerEnv), active < maxC → env.body = .other →
      buildHandler active maxC env
        = (active, [.slotIncrement, .mkdirJobRoot, .respond 400, .slotRelease, .rmJobRoot]) := by
  intro active maxC env hlt hb
  have hnc : ¬ maxC ≤ active := by omega
  obtain ⟨q, b, er, br, fr⟩ := env
  simp at hb
  subst hb
  simp [buildHandler, hnc, buildCore]

/-- Witness for the amended C8: a free slot, an unsupported content type. -/
theorem contentType_reject_restores_state_witness :
    buildHandler 0 2 ⟨⟨none, none, none, none⟩, .other, .ok, .ok, .found⟩
      = (0, [.slotIncrement, .mkdirJobRoot, .respond 400, .slotRelease, .rmJobRoot]) :=
  contentType_reject_restores_state 0 2 _ (by decide) rfl

/-- Claim C9: for every admitted job (a request that passes the concurrency
check) and every exit path of the handler — success, every ingestion,
extraction and execution failure, and timeout — the trace ends with exactly
one slot release followed by exactly one removal of the job's working root
(neither occurs earlier), and the slot count returns to its pre-request
value. -/
theorem build_job_cleanup_exactly_once :
    ∀ (active maxC : Nat) (env : HandlerEnv), active < maxC →
      ∃ pre, (buildHandler active maxC env).2 = pre ++ [.slotRelease, .rmJobRoot]
        ∧ Ev.slotRelease ∉ pre ∧ Ev.rmJobRoot ∉ pre
        ∧ (buildHandler active maxC env).1 = active := by
  intro active maxC env h
  have hnc : ¬ maxC ≤ active := by omega
  refine ⟨.slotIncrement :: .mkdirJobRoot :: buildCore env, ?_, ?_, ?_, ?_⟩
  · simp [buildHandler, hnc]
  · simp [List.mem_cons, (buildCore_no_cleanup env).1]
  · simp [List.mem_cons, (buildCore_no_cleanup env).2]
  · simp [buildHandler, hnc]

/-- Witness for C9 at a concrete admitted job. -/
theorem build_job_cleanup_exactly_once_witness :
    ∃ pre, (buildHandler 0 1 ⟨⟨none, none, none, none⟩, .other, .ok, .ok, .found⟩).2
        = pre ++ [.slotRelease, .rmJobRoot]
      ∧ Ev.slotRelease ∉ pre ∧ Ev.rmJobRoot ∉ pre
      ∧ (buildHandler 0 1 ⟨⟨none, none, none, none⟩, .other, .ok, .ok, .found⟩).1 = 0 :=
  build_job_cleanup_exactly_once 0 1 _ (by decide)

lemma applyMultipartFields_ok_eq (s : BuildSettings) (f : MultipartFields)
    (bytes : Int) (s' : BuildSettings)
    (h : applyMultipartFields s f bytes = .ok s') :
    s' = { target := match f.target with | some t => some t | none => s.target
           timeoutSec := parseNumber f.timeoutSec s.timeoutSec
           maxZipBytes := parseNumber f.maxZipBytes s.maxZipBytes
           maxUnzipBytes := parseNumber f.maxUnzipBytes s.maxUnzipBytes } := by
  simp only [applyMultipartFields] at h
  split at h
  · cases h
  · cases h
    rfl

/-- Counterexample to claim C10: a multipart field that is present but not a
positive number does not supersede the query value. With the query parameter
`maxUnzipBytes=7` and the multipart field `maxUnzipBytes=-1` (present), the
resolved setting is 7, the query value — not the supplied body value. -/
theorem config_override_precedence_cex :
    applyMultipartFields (queryConfig ⟨none, none, none, some (some 7)⟩)
        ⟨none, none, none, some (some (-1))⟩ 0
      = .ok ⟨none, 120, 25 * 1024 * 1024, 7⟩
    ∧ (⟨none, none, none, some (some (-1))⟩ : MultipartFields).maxUnzipBytes
        = some (some (-1))
    ∧ ((7 : Int) = -1 → False) :=
  ⟨rfl, rfl, by decide⟩

/-- Claim C10 as amended: `target`, `timeoutSec`, `maxZipBytes` and
`maxUnzipBytes` may be supplied as query-string parameters, which are applied
first (against the environment defaults, positive values only); multipart
fields and JSON body values then supersede the query-derived value when they
are present and valid — `target` whenever present, the numeric settings when
they parse to a positive finite number (a `maxZipBytes` override must also
cover the bytes already received); an absent or invalid body value leaves the
query-derived value in place. -/
theorem config_query_then_valid_body_precedence :
    (∀ (q : QueryParams) (v : Int), q.maxUnzipBytes = some (some v) → 0 < v →
        (queryConfig q).maxUnzipBytes = v)
    ∧ (∀ q : QueryParams, q.maxUnzipBytes = none →
        (queryConfig q).maxUnzipBytes = DEFAULT_MAX_UNZIP_BYTES)
    ∧ (∀ (s : BuildSettings) (f : MultipartFields) (bytes : Int)
        (s' : BuildSettings) (t : String), f.target = some t →
        applyMultipartFields s f bytes = .ok s' → s'.target = some t)
    ∧ (∀ (s : BuildSettings) (f : MultipartFields) (bytes : Int)
        (s' : BuildSettings), f.target = none →
        applyMultipartFields s f bytes = .ok s' → s'.target = s.target)
    ∧ (∀ (s : BuildSettings) (f : MultipartFields) (bytes w : Int)
        (s' : BuildSettings), f.timeoutSec = some (some w) → 0 < w →
        applyMultipartFields s f bytes = .ok s' → s'.timeoutSec = w)
    ∧ (∀ (s : BuildSettings) (f : MultipartFields) (bytes : Int)
        (s' : BuildSettings), f.timeoutSec = none →
        applyMultipartFields s f bytes = .ok s' → s'.timeoutSec = s.timeoutSec)
    ∧ (∀ (s : BuildSettings) (f : MultipartFields) (bytes w : Int)
        (s' : BuildSettings), f.maxUnzipBytes = some (some w) → 0 < w →
        applyMultipartFields s f bytes = .ok s' → s'.maxUnzipBytes = w)
    ∧ (∀ (s : BuildSettings) (f : MultipartFields) (bytes w : Int)
        (s' : BuildSettings), f.maxUnzipBytes = some (some w) → w ≤ 0 →
        applyMultipartFields s f bytes = .ok s' → s'.maxUnzipBytes = s.maxUnzipBytes)
    ∧ (∀ (s : BuildSettings) (f : MultipartFields) (bytes w : Int)
        (s' : BuildSettings), f.maxZipBytes = some (some w) → 0 < w →
        applyMultipartFields s f bytes = .ok s' → s'.maxZipBytes = w)
    ∧ (∀ (s : BuildSettings) (b : JsonBody) (t : String), b.target = some t →
        (applyJsonFields s b).target = some t)
    ∧ (∀ (s : BuildSettings) (b : JsonBody) (w : Int),
        b.timeoutSec = some (some w) → 0 < w → (applyJsonFields s b).timeoutSec = w)
    ∧ (∀ (s : BuildSettings) (b : JsonBody) (w : Int),
        b.maxZipBytes = some (some w) → 0 < w → (applyJsonFields s b).maxZipBytes = w)
    ∧ (∀ (s : BuildSettings) (b : JsonBody) (w : Int),
        b.maxUnzipBytes = some (some w) → 0 < w →
        (applyJsonFields s b).maxUnzipBytes = w)
    ∧ (∀ (s : BuildSettings) (b : JsonBody), b.maxUnzipBytes = none →
        (applyJsonFields s b).maxUnzipBytes = s.maxUnzipBytes) := by
  refine ⟨?_, ?_, ?_, ?_, ?_, ?_, ?_, ?_, ?_, ?_, ?_, ?_, ?_, ?_⟩
  · intro q v hq hv
    simp [queryConfig, hq, parseNumber, show ¬ v ≤ 0 by omega]
  · intro q hq
    simp [queryConfig, hq, parseNumber]
  · intro s f bytes s' t hf hok
    rw [applyMultipartFields_ok_eq s f bytes s' hok]
    simp [hf]
  · intro s f bytes s' hf hok
    rw [applyMultipartFields_ok_eq s f bytes s' hok]
    simp [hf]
  · intro s f bytes w s' hf hw hok
    rw [applyMultipartFields_ok_eq s f bytes s' hok]
    simp [hf, parseNumber, show ¬ w ≤ 0 by omega]
  · intro s f bytes s' hf hok
    rw [applyMultipartFields_ok_eq s f bytes s' hok]
    simp [hf, parseNumber]
  · intro s f bytes w s' hf hw hok
    rw [applyMultipartFields_ok_eq s f bytes s' hok]
    simp [hf, parseNumber, show ¬ w ≤ 0 by omega]
  · intro s f bytes w s' hf hw hok
    rw [applyMultipartFields_ok_eq s f bytes s' hok]
    simp [hf, parseNumber, show w ≤ 0 by omega]
  · intro s f bytes w s' hf hw hok
    rw [applyMultipartFields_ok_eq s f bytes s' hok]
    simp [hf, parseNumber, show ¬ w ≤ 0 by omega]
  · intro s b t hb
    simp [applyJsonFields, hb]
  · intro s b w hb hw
    simp [applyJsonFields, hb, parseNumber, show ¬ w ≤ 0 by omega]
  · intro s b w hb hw
    simp [applyJsonFields, hb, parseNumber, show ¬ w ≤ 0 by omega]
  · intro s b w hb hw
    simp [applyJsonFields, hb, parseNumber, show ¬ w ≤ 0 by omega]
  · intro s b hb
    simp [applyJsonFields, hb, parseNumber]

/-- Witness for the amended C10: a present, valid multipart `maxUnzipBytes`
of 9 supersedes the query-derived 1000. -/
theorem config_query_then_valid_body_precedence_witness :
    (⟨none, 120, 100, 9⟩ : BuildSettings).maxUnzipBytes = 9 :=
  config_query_then_valid_body_precedence.2.2.2.2.2.2.1
    ⟨none, 120, 100, 1000⟩ ⟨none, none, none, some (some 9)⟩ 0 9
    ⟨none, 120, 100, 9⟩ rfl (by decide) rfl
